import Mathlib

/-
  Shallow embedding of the api_spray scan-orchestration engine.

  The Go source is embedded as pure Lean functions:
  * Go `map` values with zero-value defaults (the three-level nested maps of
    `FalsePositiveTracker`) are embedded as total functions with default 0 /
    false: indexing a nil Go map yields the zero value, and the nil-checks +
    `make` allocations in the source are exactly the mechanics of a total
    function with those defaults.
  * `strings.Contains`, `strings.HasPrefix` / `TrimPrefix`,
    `strings.HasSuffix` / `TrimSuffix`, `strings.ReplaceAll` and
    `strings.ToLower` are embedded over `List Char`; `ToLower` is embedded
    as the ASCII case mapping (the Unicode mapping of the Go library agrees
    with it on all ASCII strings, and every string the engine compares
    against is ASCII).
  * The concurrent worker pool of `Scanner.processBatch` is sequentialised:
    one worker processes the enumerated (target, word) items in producer
    order.  The producer's completion check and the worker's re-check act on
    the same completion set and collapse into the single guard of
    `processItem`.  A `probed` log field records every probe issued, so that
    statements about "no probe is issued" can be expressed.
-/

namespace ApiSpray

/-! ## Go `strings` helpers -/

/-- `leadsWith pat hay`: `pat` is a prefix of `hay` (Go `strings.HasPrefix`,
over rune lists). -/
def leadsWith : List Char → List Char → Bool
  | [], _ => true
  | _ :: _, [] => false
  | a :: as, b :: bs => a = b && leadsWith as bs

/-- `hasSub pat hay`: `hay` contains `pat` as a contiguous substring
(Go `strings.Contains`, over rune lists). -/
def hasSub (pat : List Char) : List Char → Bool
  | [] => pat.isEmpty
  | c :: rest => leadsWith pat (c :: rest) || hasSub pat rest

/-- Go `strings.Contains s sub`. -/
def goContains (s sub : String) : Bool := hasSub sub.data s.data

/-- ASCII lower-casing of one character (Go `unicode.ToLower` restricted to
ASCII, which covers every comparison string in the source). -/
def asciiLower (c : Char) : Char :=
  if 'A' ≤ c ∧ c ≤ 'Z' then Char.ofNat (c.toNat + 32) else c

/-- Go `strings.ToLower` (ASCII fragment). -/
def goToLower (s : String) : String := ⟨s.data.map asciiLower⟩

/-- `trailsWith pat hay`: `pat` is a suffix of `hay` (Go `strings.HasSuffix`). -/
def trailsWith (pat hay : List Char) : Bool :=
  leadsWith pat.reverse hay.reverse

/-- Go `strings.TrimSuffix s suffix`: drop one trailing occurrence if present. -/
def goTrimSuffix (s suffix : String) : String :=
  if trailsWith suffix.data s.data then
    ⟨s.data.take (s.data.length - suffix.data.length)⟩
  else s

/-- Go `strings.TrimPrefix s pre`: drop one leading occurrence if present. -/
def goTrimPrefix (s pre : String) : String :=
  if leadsWith pre.data s.data then ⟨s.data.drop pre.data.length⟩ else s

/-- One step of Go `strings.ReplaceAll s old new` specialised to a
single-character pattern `old` (the source only instantiates it at `"*"`). -/
def replaceAllChar (old : Char) (new : List Char) : List Char → List Char
  | [] => []
  | c :: rest =>
    if c = old then new ++ replaceAllChar old new rest
    else c :: replaceAllChar old new rest

/-! ## `pkg/types`: configuration, scan modes, results -/

/-- Scan modes (`types.ScanMode`). -/
inductive ScanMode
  | ModeWildcards
  | ModeDirectories
  | ModeSubdomains
deriving DecidableEq

/-- The fields of `types.Config` the engine reads. -/
structure Config where
  Mode : String
  Threads : Nat
  Batch : Nat
  StatusCodes : List Int
  DisableHTTP : Bool

/-- `Config.GetMode` (`pkg/types`): dispatch on the mode string, defaulting
to wildcards. -/
def Config.GetMode (c : Config) : ScanMode :=
  match c.Mode with
  | "directories" => ScanMode.ModeDirectories
  | "subdomains" => ScanMode.ModeSubdomains
  | _ => ScanMode.ModeWildcards

/-- `types.Result` (the fields the engine branches on; `ResponseTime` and
`Title` are carried but never inspected by the orchestration logic). -/
structure Result where
  Target : String
  Word : String
  URL : String
  StatusCode : Int
  ContentLength : Int
  Title : String
  Error : String
deriving DecidableEq

/-! ## False-positive tracker (`pkg/types`) -/

/-- Pointwise update of a three-argument map at one (target, status, length)
triple: the effect of a Go assignment into the nested maps. -/
def update3 {α : Type} (f : String → Int → Int → α)
    (t : String) (s l : Int) (v : α) : String → Int → Int → α :=
  fun t2 s2 l2 => if t2 = t ∧ s2 = s ∧ l2 = l then v else f t2 s2 l2

/-- `types.FalsePositiveTracker`: per-(target, status, length) occurrence
counts and the latched filtered set. -/
structure FalsePositiveTracker where
  SizeTracking : String → Int → Int → Nat
  FilteredSizes : String → Int → Int → Bool
  Threshold : Nat

/-- `types.NewFalsePositiveTracker`: empty maps, threshold 10. -/
def NewFalsePositiveTracker : FalsePositiveTracker :=
  { SizeTracking := fun _ _ _ => 0
    FilteredSizes := fun _ _ _ => false
    Threshold := 10 }

/-- `FalsePositiveTracker.TrackResponseSize`: increment the count for the
triple; if the new count reaches the threshold, latch the triple into the
filtered set. -/
def TrackResponseSize (fp : FalsePositiveTracker)
    (target : String) (statusCode contentLength : Int) : FalsePositiveTracker :=
  let newCount := fp.SizeTracking target statusCode contentLength + 1
  { SizeTracking := update3 fp.SizeTracking target statusCode contentLength newCount
    FilteredSizes :=
      if fp.Threshold ≤ newCount then
        update3 fp.FilteredSizes target statusCode contentLength true
      else fp.FilteredSizes
    Threshold := fp.Threshold }

/-- `FalsePositiveTracker.ShouldFilter`: membership in the filtered set. -/
def ShouldFilter (fp : FalsePositiveTracker)
    (target : String) (statusCode contentLength : Int) : Bool :=
  fp.FilteredSizes target statusCode contentLength

/-- `n` repeated `TrackResponseSize` calls on the same triple. -/
def trackRep : Nat → FalsePositiveTracker → String → Int → Int → FalsePositiveTracker
  | 0, fp, _, _, _ => fp
  | n + 1, fp, t, s, l => TrackResponseSize (trackRep n fp t s l) t s l

/-- Apply a list of `TrackResponseSize` calls in order. -/
def applyTracks (ops : List (String × Int × Int))
    (fp : FalsePositiveTracker) : FalsePositiveTracker :=
  ops.foldl (fun acc op => TrackResponseSize acc op.1 op.2.1 op.2.2) fp

/-! ## Error persistence policy (`internal/output`) -/

/-- The DNS/network error fragments of `output.ShouldSaveError`. -/
def dnsErrors : List String :=
  ["no such host", "server misbehaving", "connection refused",
   "network is unreachable", "host is down"]

/-- `output.ShouldSaveError`: false when the lower-cased message contains a
DNS/network fragment, true otherwise. -/
def ShouldSaveError (errorMsg : String) : Bool :=
  let lowerError := goToLower errorMsg
  !(dnsErrors.any fun dnsErr => goContains lowerError dnsErr)

/-! ## URL construction (`internal/http.GenerateURL`) -/

/-- `http.GenerateURL`: trim a trailing `/` off the target and a leading `/`
off the word, then dispatch on the scan mode. -/
def GenerateURL (target word : String) (mode : ScanMode) : String :=
  let target2 := goTrimSuffix target "/"
  let word2 := goTrimPrefix word "/"
  match mode with
  | ScanMode.ModeWildcards => ⟨replaceAllChar '*' word2.data target2.data⟩
  | ScanMode.ModeDirectories => target2 ++ "/" ++ word2
  | ScanMode.ModeSubdomains =>
    let domain := goTrimPrefix target2 "http://"
    let domain := goTrimPrefix domain "https://"
    let domain : String := ⟨domain.data.takeWhile (fun c => c ≠ '/')⟩
    "https://" ++ word2 ++ "." ++ domain

/-- The substitution C7 describes for wildcards mode, stated from the
claim's words for comparison with `GenerateURL`: the target with every `*`
occurrence replaced by the word verbatim and every other character left
untouched. -/
def wildcardSubstSpec (target word : String) : String :=
  ⟨target.data.flatMap (fun c => if c = '*' then word.data else [c])⟩

/-! ## Probe pipeline (`internal/http.TestURL`, `Scanner.TestURL`) -/

/-- Transport-level outcome of one probe: the part of `http.TestURL` below
the HTTP client, supplied as an oracle. -/
inductive ProbeOutcome
  | failure (msg : String)
  | response (statusCode contentLength : Int) (title : String)

/-- Result construction of `http.TestURL` from a transport outcome: on
error the `Result` keeps zero status and carries the message; on a response
it records status and length, extracting a title only for allowed codes. -/
def httpTestURL (target word url : String) (statusCodes : List Int)
    (outcome : ProbeOutcome) : Result :=
  match outcome with
  | ProbeOutcome.failure msg =>
    { Target := target, Word := word, URL := url, StatusCode := 0,
      ContentLength := 0, Title := "", Error := msg }
  | ProbeOutcome.response s l ttl =>
    { Target := target, Word := word, URL := url, StatusCode := s,
      ContentLength := l, Title := if statusCodes.contains s then ttl else "",
      Error := "" }

/-- `scanner.Statistics` (atomic counters, embedded as plain naturals in the
sequentialised model). -/
structure Statistics where
  totalRequests : Nat
  successCount : Nat
  errorCount : Nat
  timeoutCount : Nat
  filteredCount : Nat
deriving DecidableEq

/-- Zero-initialised statistics. -/
def emptyStats : Statistics := ⟨0, 0, 0, 0, 0⟩

/-! ## Completion tracking (`internal/progress.Manager`) -/

/-- The composite completion key `fmt.Sprintf("%s|%s", target, word)` of
`Manager.IsCompleted` / `Manager.MarkCompleted`. -/
def completionKey (target word : String) : String := target ++ "|" ++ word

/-- `Manager.MarkCompleted`: store the key in the completion set (the
`sync.Map` is embedded as a list read through membership). -/
def markCompleted (completed : List String) (target word : String) :
    List String :=
  completionKey target word :: completed

/-- `Manager.IsCompleted`: key membership in the completion set. -/
def isCompleted (completed : List String) (target word : String) : Bool :=
  completed.contains (completionKey target word)

/-- Scanner-visible state threaded through the sequentialised worker:
statistics, the shared false-positive tracker, the completion set, the
results written by the output manager, and a log of issued probes. -/
structure ScannerState where
  stats : Statistics
  fpTracker : FalsePositiveTracker
  completed : List String
  saved : List Result
  probed : List (String × String)

/-- `Scanner.TestURL`: count the request, obtain the `Result`, then
categorise — a `"timeout"`-containing error bumps the timeout counter, a
`"no such host"` error bumps nothing, any other error bumps the error
counter; an allowed status tracks the response size and counts a success,
a disallowed status counts an error. -/
def scannerTestURL (statusCodes : List Int) (st : ScannerState)
    (target word url : String) (outcome : ProbeOutcome) :
    Result × ScannerState :=
  let st := { st with stats :=
    { st.stats with totalRequests := st.stats.totalRequests + 1 } }
  let result := httpTestURL target word url statusCodes outcome
  if result.Error ≠ "" then
    if goContains result.Error "timeout" then
      (result, { st with stats :=
        { st.stats with timeoutCount := st.stats.timeoutCount + 1 } })
    else if goContains (goToLower result.Error) "no such host" then
      (result, st)
    else
      (result, { st with stats :=
        { st.stats with errorCount := st.stats.errorCount + 1 } })
  else
    if statusCodes.contains result.StatusCode then
      (result,
        { st with
          fpTracker := TrackResponseSize st.fpTracker target
            result.StatusCode result.ContentLength
          stats := { st.stats with successCount := st.stats.successCount + 1 } })
    else
      (result, { st with stats :=
        { st.stats with errorCount := st.stats.errorCount + 1 } })

/-- Worker body of `Scanner.processBatch` for one dequeued item.  The
producer's completion filter and the worker's re-check collapse into the
single guard; a processed item is appended to the probe log, evaluated,
possibly filtered and saved, and always marked completed. -/
def processItem (statusCodes : List Int) (mode : ScanMode)
    (oracle : String → String → ProbeOutcome)
    (st : ScannerState) (item : String × String) : ScannerState :=
  if isCompleted st.completed item.1 item.2 then st
  else
    let url := GenerateURL item.1 item.2 mode
    let st1 := { st with probed := st.probed ++ [item] }
    let rs := scannerTestURL statusCodes st1 item.1 item.2 url
      (oracle item.1 item.2)
    let result := rs.1
    let st2 := rs.2
    let shouldFilterB :=
      if 0 < result.StatusCode then
        ShouldFilter st2.fpTracker item.1 result.StatusCode
          result.ContentLength
      else false
    let st3 :=
      if shouldFilterB then
        { st2 with stats :=
          { st2.stats with filteredCount := st2.stats.filteredCount + 1 } }
      else st2
    let shouldSave :=
      if 0 < result.StatusCode ∧ shouldFilterB = false then
        statusCodes.contains result.StatusCode
      else if result.Error ≠ "" then ShouldSaveError result.Error
      else false
    let st4 :=
      if shouldSave then { st3 with saved := st3.saved ++ [result] } else st3
    { st4 with completed := markCompleted st4.completed item.1 item.2 }

/-- Producer enumeration of `Scanner.processBatch`: targets outer loop,
words inner loop. -/
def batchItems (targets words : List String) : List (String × String) :=
  targets.flatMap (fun t => words.map (fun w => (t, w)))

/-- Sequentialisation of `Scanner.processBatch`: fold the worker body over
the enumerated cross product. -/
def processBatch (statusCodes : List Int) (mode : ScanMode)
    (oracle : String → String → ProbeOutcome)
    (targets words : List String) (st : ScannerState) : ScannerState :=
  (batchItems targets words).foldl (processItem statusCodes mode oracle) st

/-! ## Run-level batching (`Scanner.Run`) -/

/-- The progress fields `Scanner.Run` computes. -/
structure ProgressR where
  LastBatch : Nat
  TotalBatches : Nat
  CompletedCount : Nat
  TotalWork : Nat

/-- The fresh-progress initialisation of `Scanner.Run` (no loaded
progress): `TotalBatches = (len(wordlist)+Batch-1)/Batch`,
`TotalWork = len(targets)*len(wordlist)`, zero `LastBatch`. -/
def freshProgress (targets words : List String) (batch : Nat) : ProgressR :=
  { LastBatch := 0
    TotalBatches := (words.length + batch - 1) / batch
    CompletedCount := 0
    TotalWork := targets.length * words.length }

/-- The batch indices the `Scanner.Run` loop visits:
`batchNum = LastBatch, …, TotalBatches - 1`. -/
def runBatchIndices (p : ProgressR) : List Nat :=
  List.range' p.LastBatch (p.TotalBatches - p.LastBatch)

/-- The word slice of batch `i` in `Scanner.Run`:
`wordlist[i*batch : min(i*batch+batch, len(wordlist))]`. -/
def batchSlice (words : List String) (batch i : Nat) : List String :=
  let startIdx := i * batch
  let endIdx := min (startIdx + batch) words.length
  (words.drop startIdx).take (endIdx - startIdx)

/-! ## Basic tracker lemmas -/

theorem update3_same {α : Type} (f : String → Int → Int → α)
    (t : String) (s l : Int) (v : α) : update3 f t s l v t s l = v := by
  simp [update3]

theorem TrackResponseSize_count_same (fp : FalsePositiveTracker)
    (t : String) (s l : Int) :
    (TrackResponseSize fp t s l).SizeTracking t s l =
      fp.SizeTracking t s l + 1 := by
  simp [TrackResponseSize, update3_same]

theorem TrackResponseSize_threshold (fp : FalsePositiveTracker)
    (t : String) (s l : Int) :
    (TrackResponseSize fp t s l).Threshold = fp.Threshold := by
  simp [TrackResponseSize]

/-- The filtered set never loses an entry on a track call. -/
theorem TrackResponseSize_filtered_mono (fp : FalsePositiveTracker)
    (a : String) (b c : Int) (t : String) (s l : Int)
    (h : fp.FilteredSizes t s l = true) :
    (TrackResponseSize fp a b c).FilteredSizes t s l = true := by
  simp only [TrackResponseSize]
  split
  · by_cases he : t = a ∧ s = b ∧ l = c
    · simp [update3, he]
    · simp [update3, he, h]
  · exact h

/-- The filtered status at the tracked triple after a track call. -/
theorem TrackResponseSize_filtered_same (fp : FalsePositiveTracker)
    (t : String) (s l : Int) :
    (TrackResponseSize fp t s l).FilteredSizes t s l =
      (fp.FilteredSizes t s l ||
        decide (fp.Threshold ≤ fp.SizeTracking t s l + 1)) := by
  simp only [TrackResponseSize]
  by_cases h : fp.Threshold ≤ fp.SizeTracking t s l + 1
  · simp [h, update3_same]
  · simp [h]

theorem trackRep_count (n : Nat) (t : String) (s l : Int) :
    (trackRep n NewFalsePositiveTracker t s l).SizeTracking t s l = n := by
  induction n with
  | zero => rfl
  | succ k ih => simp [trackRep, TrackResponseSize_count_same, ih]

theorem trackRep_threshold (n : Nat) (t : String) (s l : Int) :
    (trackRep n NewFalsePositiveTracker t s l).Threshold = 10 := by
  induction n with
  | zero => rfl
  | succ k ih => simp [trackRep, TrackResponseSize_threshold, ih]

theorem trackRep_filtered (n : Nat) (t : String) (s l : Int) :
    (trackRep n NewFalsePositiveTracker t s l).FilteredSizes t s l =
      decide (10 ≤ n) := by
  induction n with
  | zero => rfl
  | succ k ih =>
    simp only [trackRep, TrackResponseSize_filtered_same, ih,
      trackRep_count, trackRep_threshold]
    by_cases h : 10 ≤ k
    · simp [h, Nat.le_succ_of_le h]
    · by_cases h2 : 10 ≤ k + 1
      · simp [h, h2]
      · simp [h, h2]

/-- **C2** (Detector threshold boundary): starting from a fresh tracker
(threshold 10), nine `TrackResponseSize` calls on a triple leave
`ShouldFilter` false for that triple; the tenth call flips it to true. -/
theorem c2_threshold_boundary (t : String) (s l : Int) :
    ShouldFilter (trackRep 9 NewFalsePositiveTracker t s l) t s l = false ∧
    ShouldFilter (trackRep 10 NewFalsePositiveTracker t s l) t s l = true := by
  constructor
  · simp [ShouldFilter, trackRep_filtered]
  · simp [ShouldFilter, trackRep_filtered]

/-- **C4** (Detector latch monotonicity): once `ShouldFilter` answers true
for a triple, it stays true after any further sequence of
`TrackResponseSize` calls. -/
theorem c4_filter_latch (fp : FalsePositiveTracker) (t : String) (s l : Int)
    (ops : List (String × Int × Int))
    (h : ShouldFilter fp t s l = true) :
    ShouldFilter (applyTracks ops fp) t s l = true := by
  induction ops generalizing fp with
  | nil => exact h
  | cons op rest ih =>
    exact ih (TrackResponseSize fp op.1 op.2.1 op.2.2)
      (TrackResponseSize_filtered_mono fp op.1 op.2.1 op.2.2 t s l h)

/-- Witness for C4: a concretely latched triple stays filtered through
further concrete track calls. -/
theorem c4_filter_latch_witness :
    ShouldFilter
      (applyTracks [("t", 200, 5), ("u", 404, 7), ("t", 200, 5)]
        (trackRep 10 NewFalsePositiveTracker "t" 200 5)) "t" 200 5 = true :=
  c4_filter_latch (trackRep 10 NewFalsePositiveTracker "t" 200 5) "t" 200 5
    [("t", 200, 5), ("u", 404, 7), ("t", 200, 5)] (by decide)

/-! ## C10: mode dispatch default -/

/-- **C10**: every mode string other than `"directories"` and
`"subdomains"` — the empty string and misspellings included — is silently
mapped to wildcards mode by `Config.GetMode`. -/
theorem c10_getmode_default (c : Config)
    (h1 : c.Mode ≠ "directories") (h2 : c.Mode ≠ "subdomains") :
    Config.GetMode c = ScanMode.ModeWildcards := by
  unfold Config.GetMode
  split
  next h => exact absurd h h1
  next h => exact absurd h h2
  next => rfl

/-- Witness for C10: the misspelling `"wildcard"` resolves to wildcards
mode. -/
theorem c10_getmode_default_witness :
    Config.GetMode ⟨"wildcard", 50, 10, [200], false⟩ =
      ScanMode.ModeWildcards :=
  c10_getmode_default ⟨"wildcard", 50, 10, [200], false⟩
    (by decide) (by decide)

/-! ## C7: wildcard URL generation -/

theorem replaceAllChar_eq_flatMap (old : Char) (new : List Char)
    (l : List Char) :
    replaceAllChar old new l =
      l.flatMap (fun c => if c = old then new else [c]) := by
  induction l with
  | nil => rfl
  | cons c rest ih =>
    simp only [replaceAllChar, List.flatMap_cons, ih]
    split <;> simp

/-- **C7 counterexample**: `GenerateURL` strips the trailing slash of the
target before substituting, so on `target = "a/"`, `word = "b"` the result
`"a"` differs from the claim's verbatim substitution `"a/"`. -/
theorem c7_wildcards_counterexample :
    GenerateURL "a/" "b" ScanMode.ModeWildcards ≠
      wildcardSubstSpec "a/" "b" ∧
    GenerateURL "a/" "b" ScanMode.ModeWildcards = "a" ∧
    wildcardSubstSpec "a/" "b" = "a/" := by
  refine ⟨by decide, by decide, by decide⟩

/-- **C7 amended**: in wildcards mode, `GenerateURL` equals the verbatim
star-for-word substitution applied to the target with a trailing `/`
stripped and the word with a leading `/` stripped; no other characters are
altered. -/
theorem c7_wildcards_amended (t w : String) :
    GenerateURL t w ScanMode.ModeWildcards =
      wildcardSubstSpec (goTrimSuffix t "/") (goTrimPrefix w "/") := by
  simp only [GenerateURL, wildcardSubstSpec, replaceAllChar_eq_flatMap]

/-! ## C8: completion-key injectivity -/

theorem sep_append_inj (sep : Char) :
    ∀ t1 t2 w1 w2 : List Char, sep ∉ t1 → sep ∉ t2 →
      t1 ++ sep :: w1 = t2 ++ sep :: w2 → t1 = t2 ∧ w1 = w2 := by
  intro t1
  induction t1 with
  | nil =>
    intro t2 w1 w2 _ h2 h
    cases t2 with
    | nil => simpa using h
    | cons d t2s =>
      simp only [List.nil_append, List.cons_append, List.cons.injEq] at h
      exact absurd (h.1 ▸ List.mem_cons_self d t2s) h2
  | cons c t1s ih =>
    intro t2 w1 w2 h1 h2 h
    cases t2 with
    | nil =>
      simp only [List.nil_append, List.cons_append, List.cons.injEq] at h
      exact absurd (h.1.symm ▸ List.mem_cons_self c t1s) h1
    | cons d t2s =>
      simp only [List.cons_append, List.cons.injEq] at h
      obtain ⟨hc, ht⟩ := h
      have hrec := ih t2s w1 w2
        (fun hm => h1 (List.mem_cons_of_mem _ hm))
        (fun hm => h2 (List.mem_cons_of_mem _ hm)) ht
      exact ⟨by rw [hc, hrec.1], hrec.2⟩

/-- **C8 counterexample**: the `target + "|" + word` key is not injective —
marking `("a", "b|c")` complete makes the distinct pair `("a|b", "c")`
report completed. -/
theorem c8_key_counterexample :
    isCompleted (markCompleted [] "a" "b|c") "a|b" "c" = true ∧
    (("a", "b|c") : String × String) ≠ ("a|b", "c") := by
  refine ⟨by decide, by decide⟩

/-- **C8 amended**: on pairs whose targets do not contain the separator
`'|'`, the completion key is injective, so marking one such pair complete
never affects a different such pair. -/
theorem c8_key_injective_amended (t1 w1 t2 w2 : String)
    (h1 : '|' ∉ t1.data) (h2 : '|' ∉ t2.data)
    (h : completionKey t1 w1 = completionKey t2 w2) :
    t1 = t2 ∧ w1 = w2 := by
  have hd : t1.data ++ '|' :: w1.data = t2.data ++ '|' :: w2.data := by
    have := congrArg String.data h
    simpa [completionKey, String.data_append] using this
  have hr := sep_append_inj '|' t1.data t2.data w1.data w2.data h1 h2 hd
  exact ⟨String.ext hr.1, String.ext hr.2⟩

/-- Witness for C8 (amended): pipe-free pairs with equal keys coincide. -/
theorem c8_key_injective_amended_witness :
    ("api.test" : String) = "api.test" ∧ ("v1" : String) = "v1" :=
  c8_key_injective_amended "api.test" "v1" "api.test" "v1"
    (by decide) (by decide) (by decide)

/-! ## Substring lemmas for error classification -/

theorem leadsWith_map (f : Char → Char) :
    ∀ p h : List Char, leadsWith p h = true →
      leadsWith (p.map f) (h.map f) = true := by
  intro p
  induction p with
  | nil => intro h _; rfl
  | cons a as ih =>
    intro h hp
    cases h with
    | nil => simp [leadsWith] at hp
    | cons b bs =>
      simp only [leadsWith, Bool.and_eq_true, decide_eq_true_eq] at hp
      simp only [List.map_cons, leadsWith, Bool.and_eq_true,
        decide_eq_true_eq]
      exact ⟨by rw [hp.1], ih bs hp.2⟩

theorem hasSub_map (f : Char → Char) (p : List Char) :
    ∀ h : List Char, hasSub p h = true →
      hasSub (p.map f) (h.map f) = true := by
  intro h
  induction h with
  | nil =>
    intro hp
    simp only [hasSub, List.isEmpty_iff] at hp
    subst hp
    rfl
  | cons c rest ih =>
    intro hp
    simp only [hasSub, Bool.or_eq_true] at hp
    rcases hp with hl | hr
    · have hm := leadsWith_map f p (c :: rest) hl
      simp only [List.map_cons] at hm ⊢
      simp [hasSub, hm]
    · have hm := ih hr
      simp only [List.map_cons]
      simp [hasSub, hm]

theorem goContains_toLower (msg sub : String)
    (hfix : sub.data.map asciiLower = sub.data)
    (h : goContains msg sub = true) :
    goContains (goToLower msg) sub = true := by
  unfold goContains goToLower
  have hm := hasSub_map asciiLower sub.data msg.data h
  rwa [hfix] at hm

theorem goContains_nonempty (msg sub : String) (hs : sub ≠ "")
    (h : goContains msg sub = true) : msg ≠ "" := by
  intro he
  subst he
  simp only [goContains, hasSub, List.isEmpty_iff] at h
  exact hs (String.ext h)

/-! ## C5: "context deadline exceeded" classification -/

/-- **C5 counterexample**: a probe failing with exactly
`"context deadline exceeded"` does not contain the substring `"timeout"`,
so `Scanner.TestURL` leaves the timeout counter alone and bumps the error
counter instead. -/
theorem c5_deadline_counterexample :
    (scannerTestURL [200] ⟨emptyStats, NewFalsePositiveTracker, [], [], []⟩
      "t" "w" "u" (ProbeOutcome.failure "context deadline exceeded")
      ).2.stats.timeoutCount = 0 ∧
    (scannerTestURL [200] ⟨emptyStats, NewFalsePositiveTracker, [], [], []⟩
      "t" "w" "u" (ProbeOutcome.failure "context deadline exceeded")
      ).2.stats.errorCount = 1 := by
  refine ⟨by decide, by decide⟩

/-- **C5 amended**: a probe failing with `"context deadline exceeded"`
increments the error counter (not the timeout or success counter), and the
result is persisted (`ShouldSaveError` returns true for that message). -/
theorem c5_deadline_amended (statusCodes : List Int) (st : ScannerState)
    (t w url : String) :
    (scannerTestURL statusCodes st t w url
      (ProbeOutcome.failure "context deadline exceeded")).2.stats.errorCount
        = st.stats.errorCount + 1 ∧
    (scannerTestURL statusCodes st t w url
      (ProbeOutcome.failure "context deadline exceeded")).2.stats.timeoutCount
        = st.stats.timeoutCount ∧
    (scannerTestURL statusCodes st t w url
      (ProbeOutcome.failure "context deadline exceeded")).2.stats.successCount
        = st.stats.successCount ∧
    ShouldSaveError "context deadline exceeded" = true := by
  have h1 : goContains "context deadline exceeded" "timeout" = false := by
    decide
  have h2 : goContains (goToLower "context deadline exceeded")
      "no such host" = false := by decide
  refine ⟨?_, ?_, ?_, by decide⟩ <;>
    simp [scannerTestURL, httpTestURL, h1, h2]

/-! ## C6: "no such host" classification -/

/-- **C6 counterexample**: the timeout check runs first, so a message
containing both `"timeout"` and `"no such host"` does increment the timeout
counter, contradicting the claim for that message (it is still not
persisted). -/
theorem c6_nosuchhost_counterexample :
    (scannerTestURL [200] ⟨emptyStats, NewFalsePositiveTracker, [], [], []⟩
      "t" "w" "u" (ProbeOutcome.failure "timeout: no such host")
      ).2.stats.timeoutCount = 1 ∧
    ShouldSaveError "timeout: no such host" = false := by
  refine ⟨by decide, by decide⟩

/-- **C6 amended**: a probe failing with a message that contains
`"no such host"` and does not contain `"timeout"` leaves the error, timeout
and success counters unchanged (only the total-request counter moves), and
the result is not persisted (`ShouldSaveError` returns false). -/
theorem c6_nosuchhost_amended (statusCodes : List Int) (st : ScannerState)
    (t w url msg : String)
    (hns : goContains msg "no such host" = true)
    (hnt : goContains msg "timeout" = false) :
    (scannerTestURL statusCodes st t w url
      (ProbeOutcome.failure msg)).2.stats =
      { st.stats with totalRequests := st.stats.totalRequests + 1 } ∧
    ShouldSaveError msg = false := by
  have hne : msg ≠ "" :=
    goContains_nonempty msg "no such host" (by decide) hns
  have hlow : goContains (goToLower msg) "no such host" = true :=
    goContains_toLower msg "no such host" (by decide) hns
  constructor
  · simp [scannerTestURL, httpTestURL, hne, hnt, hlow]
  · simp [ShouldSaveError, dnsErrors, hlow]

/-- Witness for C6 (amended): a realistic DNS failure message. -/
theorem c6_nosuchhost_amended_witness :
    (scannerTestURL [200] ⟨emptyStats, NewFalsePositiveTracker, [], [], []⟩
      "t" "w" "u"
      (ProbeOutcome.failure "lookup a.test: no such host")).2.stats =
      { emptyStats with totalRequests := emptyStats.totalRequests + 1 } ∧
    ShouldSaveError "lookup a.test: no such host" = false :=
  c6_nosuchhost_amended [200]
    ⟨emptyStats, NewFalsePositiveTracker, [], [], []⟩ "t" "w" "u"
    "lookup a.test: no such host" (by decide) (by decide)

/-! ## Per-item pipeline lemmas -/

theorem isCompleted_eq_true_iff (completed : List String) (t w : String) :
    isCompleted completed t w = true ↔ completionKey t w ∈ completed := by
  simp [isCompleted, List.contains, List.elem_eq_mem]

theorem scannerTestURL_completed (statusCodes : List Int) (st : ScannerState)
    (t w url : String) (o : ProbeOutcome) :
    (scannerTestURL statusCodes st t w url o).2.completed = st.completed := by
  simp only [scannerTestURL]
  split_ifs <;> rfl

theorem scannerTestURL_probed (statusCodes : List Int) (st : ScannerState)
    (t w url : String) (o : ProbeOutcome) :
    (scannerTestURL statusCodes st t w url o).2.probed = st.probed := by
  simp only [scannerTestURL]
  split_ifs <;> rfl

/-- On a transport failure with a non-empty message, `Scanner.TestURL`
never touches the tracker. -/
theorem scannerTestURL_fpTracker_failure (statusCodes : List Int)
    (st : ScannerState) (t w url msg : String) (hm : msg ≠ "") :
    (scannerTestURL statusCodes st t w url
      (ProbeOutcome.failure msg)).2.fpTracker = st.fpTracker := by
  simp only [scannerTestURL, httpTestURL, ne_eq, hm, not_false_eq_true,
    if_true]
  split_ifs <;> rfl

/-- On a response, `Scanner.TestURL` tracks the size exactly when the
status code is accepted. -/
theorem scannerTestURL_fpTracker_response (statusCodes : List Int)
    (st : ScannerState) (t w url : String) (s l : Int) (ttl : String) :
    (scannerTestURL statusCodes st t w url
      (ProbeOutcome.response s l ttl)).2.fpTracker =
      (if statusCodes.contains s then TrackResponseSize st.fpTracker t s l
       else st.fpTracker) := by
  simp only [scannerTestURL, httpTestURL, ne_eq, not_true_eq_false]
  split_ifs <;> simp_all

theorem processItem_skip (statusCodes : List Int) (mode : ScanMode)
    (oracle : String → String → ProbeOutcome) (st : ScannerState)
    (i : String × String) (h : isCompleted st.completed i.1 i.2 = true) :
    processItem statusCodes mode oracle st i = st := by
  simp [processItem, h]

theorem processItem_completed (statusCodes : List Int) (mode : ScanMode)
    (oracle : String → String → ProbeOutcome) (st : ScannerState)
    (t w : String) (h : isCompleted st.completed t w = false) :
    (processItem statusCodes mode oracle st (t, w)).completed =
      markCompleted st.completed t w := by
  simp only [processItem, h, Bool.false_eq_true, if_false]
  split_ifs <;> simp [scannerTestURL_completed]

theorem processItem_probed (statusCodes : List Int) (mode : ScanMode)
    (oracle : String → String → ProbeOutcome) (st : ScannerState)
    (t w : String) (h : isCompleted st.completed t w = false) :
    (processItem statusCodes mode oracle st (t, w)).probed =
      st.probed ++ [(t, w)] := by
  simp only [processItem, h, Bool.false_eq_true, if_false]
  split_ifs <;> simp [scannerTestURL_probed]

/-- For a not-yet-completed item the tracker after `processItem` is the
tracker after the embedded `Scanner.TestURL` call: the filter and save
steps never touch it. -/
theorem processItem_fpTracker (statusCodes : List Int) (mode : ScanMode)
    (oracle : String → String → ProbeOutcome) (st : ScannerState)
    (t w : String) (h : isCompleted st.completed t w = false) :
    (processItem statusCodes mode oracle st (t, w)).fpTracker =
      (scannerTestURL statusCodes { st with probed := st.probed ++ [(t, w)] }
        t w (GenerateURL t w mode) (oracle t w)).2.fpTracker := by
  simp only [processItem, h, Bool.false_eq_true, if_false]
  split_ifs <;> rfl

/-! ## C3: size tracking versus the filter decision -/

/-- **C3 counterexample**: with the triple ("a", 200, 5) already latched
(count 10), one more accepted probe of that shape is classified a false
positive (the filtered counter moves) and yet its size is still tracked —
the occurrence counter rises to 11, because `Scanner.TestURL` tracks before
`processBatch` consults `ShouldFilter`. -/
theorem c3_track_counterexample :
    (processItem [200] ScanMode.ModeWildcards
      (fun _ _ => ProbeOutcome.response 200 5 "")
      ⟨emptyStats, trackRep 10 NewFalsePositiveTracker "a" 200 5, [], [], []⟩
      ("a", "x")).stats.filteredCount = 1 ∧
    (processItem [200] ScanMode.ModeWildcards
      (fun _ _ => ProbeOutcome.response 200 5 "")
      ⟨emptyStats, trackRep 10 NewFalsePositiveTracker "a" 200 5, [], [], []⟩
      ("a", "x")).fpTracker.SizeTracking "a" 200 5 = 11 := by
  refine ⟨by decide, by decide⟩

/-- **C3 amended**: for a dequeued, not-yet-completed item,
`TrackResponseSize` is invoked exactly when the probe yields a response
whose status code is in the accept-list — independently of the filter
decision (in particular, an accepted outcome later classified as a false
positive is still tracked); error outcomes and rejected status codes never
touch the tracker. -/
theorem c3_track_amended (statusCodes : List Int) (mode : ScanMode)
    (oracle : String → String → ProbeOutcome) (st : ScannerState)
    (t w : String) (hnc : isCompleted st.completed t w = false) :
    (∀ s l ttl, oracle t w = ProbeOutcome.response s l ttl →
      (processItem statusCodes mode oracle st (t, w)).fpTracker =
        (if statusCodes.contains s then
          TrackResponseSize st.fpTracker t s l
         else st.fpTracker)) ∧
    (∀ msg, msg ≠ "" → oracle t w = ProbeOutcome.failure msg →
      (processItem statusCodes mode oracle st (t, w)).fpTracker =
        st.fpTracker) := by
  constructor
  · intro s l ttl ho
    rw [processItem_fpTracker statusCodes mode oracle st t w hnc, ho,
      scannerTestURL_fpTracker_response]
  · intro msg hm ho
    rw [processItem_fpTracker statusCodes mode oracle st t w hnc, ho,
      scannerTestURL_fpTracker_failure _ _ _ _ _ _ hm]

/-- Witness for C3 (amended): the accepted, already-filtered probe of the
counterexample state is still tracked. -/
theorem c3_track_amended_witness :
    (processItem [200] ScanMode.ModeWildcards
      (fun _ _ => ProbeOutcome.response 200 5 "")
      ⟨emptyStats, trackRep 10 NewFalsePositiveTracker "a" 200 5, [], [], []⟩
      ("a", "x")).fpTracker =
      (if ([200] : List Int).contains 200 then
        TrackResponseSize (trackRep 10 NewFalsePositiveTracker "a" 200 5)
          "a" 200 5
       else trackRep 10 NewFalsePositiveTracker "a" 200 5) :=
  (c3_track_amended [200] ScanMode.ModeWildcards
    (fun _ _ => ProbeOutcome.response 200 5 "")
    ⟨emptyStats, trackRep 10 NewFalsePositiveTracker "a" 200 5, [], [], []⟩
    "a" "x" (by decide)).1 200 5 "" rfl

/-! ## C1: completion marking and skip of completed work -/

theorem processItem_completed_mono (statusCodes : List Int) (mode : ScanMode)
    (oracle : String → String → ProbeOutcome) (st : ScannerState)
    (i : String × String) (x : String) (hx : x ∈ st.completed) :
    x ∈ (processItem statusCodes mode oracle st i).completed := by
  by_cases h : isCompleted st.completed i.1 i.2 = true
  · rw [processItem_skip statusCodes mode oracle st i h]
    exact hx
  · rw [Bool.not_eq_true] at h
    have h3 : (processItem statusCodes mode oracle st i).completed =
        markCompleted st.completed i.1 i.2 :=
      processItem_completed statusCodes mode oracle st i.1 i.2 h
    rw [h3]
    exact List.mem_cons_of_mem _ hx

theorem processItem_key_mem (statusCodes : List Int) (mode : ScanMode)
    (oracle : String → String → ProbeOutcome) (st : ScannerState)
    (i : String × String) :
    completionKey i.1 i.2 ∈
      (processItem statusCodes mode oracle st i).completed := by
  by_cases h : isCompleted st.completed i.1 i.2 = true
  · rw [processItem_skip statusCodes mode oracle st i h]
    exact (isCompleted_eq_true_iff st.completed i.1 i.2).mp h
  · rw [Bool.not_eq_true] at h
    have h3 : (processItem statusCodes mode oracle st i).completed =
        markCompleted st.completed i.1 i.2 :=
      processItem_completed statusCodes mode oracle st i.1 i.2 h
    rw [h3]
    exact List.mem_cons_self _ _

theorem processItem_probed_sound (statusCodes : List Int) (mode : ScanMode)
    (oracle : String → String → ProbeOutcome) (st : ScannerState)
    (i : String × String) :
    ∀ p ∈ (processItem statusCodes mode oracle st i).probed,
      p ∈ st.probed ∨ completionKey p.1 p.2 ∉ st.completed := by
  intro p hp
  by_cases h : isCompleted st.completed i.1 i.2 = true
  · rw [processItem_skip statusCodes mode oracle st i h] at hp
    exact Or.inl hp
  · rw [Bool.not_eq_true] at h
    have h3 : (processItem statusCodes mode oracle st i).probed =
        st.probed ++ [i] :=
      processItem_probed statusCodes mode oracle st i.1 i.2 h
    rw [h3, List.mem_append] at hp
    rcases hp with hp | hp
    · exact Or.inl hp
    · right
      have hpi : p = i := by simpa using hp
      subst hpi
      intro hmem
      have ht := (isCompleted_eq_true_iff st.completed p.1 p.2).mpr hmem
      exact absurd (ht.symm.trans h) (by decide)

theorem foldl_completed_mono (statusCodes : List Int) (mode : ScanMode)
    (oracle : String → String → ProbeOutcome) :
    ∀ (items : List (String × String)) (st : ScannerState) (x : String),
      x ∈ st.completed →
      x ∈ (items.foldl (processItem statusCodes mode oracle) st).completed := by
  intro items
  induction items with
  | nil => intro st x hx; simpa using hx
  | cons i rest ih =>
    intro st x hx
    rw [List.foldl_cons]
    exact ih _ x (processItem_completed_mono statusCodes mode oracle st i x hx)

theorem foldl_key_mem (statusCodes : List Int) (mode : ScanMode)
    (oracle : String → String → ProbeOutcome) :
    ∀ (items : List (String × String)) (st : ScannerState)
      (i : String × String), i ∈ items →
      completionKey i.1 i.2 ∈
        (items.foldl (processItem statusCodes mode oracle) st).completed := by
  intro items
  induction items with
  | nil => intro st i hi; simp at hi
  | cons j rest ih =>
    intro st i hi
    rw [List.foldl_cons]
    rcases List.mem_cons.mp hi with h | h
    · subst h
      exact foldl_completed_mono statusCodes mode oracle rest _ _
        (processItem_key_mem statusCodes mode oracle st i)
    · exact ih _ i h

theorem foldl_probed_sound (statusCodes : List Int) (mode : ScanMode)
    (oracle : String → String → ProbeOutcome) :
    ∀ (items : List (String × String)) (st : ScannerState)
      (p : String × String),
      p ∈ (items.foldl (processItem statusCodes mode oracle) st).probed →
      p ∈ st.probed ∨ completionKey p.1 p.2 ∉ st.completed := by
  intro items
  induction items with
  | nil => intro st p hp; exact Or.inl (by simpa using hp)
  | cons i rest ih =>
    intro st p hp
    rw [List.foldl_cons] at hp
    rcases ih _ p hp with h | h
    · exact processItem_probed_sound statusCodes mode oracle st i p h
    · right
      intro hmem
      exact h (processItem_completed_mono statusCodes mode oracle st i _ hmem)

/-- **C1**: after a batch, every (target, word) pair of the batch has its
key in the completion set regardless of its outcome; and every probe the
batch issues is for a pair whose key was not in the completion set when
the batch started — pairs completed before the batch (e.g. on resume) are
never probed. -/
theorem c1_completion_and_no_reprobe (statusCodes : List Int)
    (mode : ScanMode) (oracle : String → String → ProbeOutcome)
    (targets words : List String) (st : ScannerState) :
    (∀ t w, t ∈ targets → w ∈ words →
      completionKey t w ∈
        (processBatch statusCodes mode oracle targets words st).completed) ∧
    (∀ p : String × String,
      p ∈ (processBatch statusCodes mode oracle targets words st).probed →
      p ∈ st.probed ∨ completionKey p.1 p.2 ∉ st.completed) := by
  constructor
  · intro t w ht hw
    have hmem : (t, w) ∈ batchItems targets words := by
      simp only [batchItems, List.mem_flatMap, List.mem_map]
      exact ⟨t, ht, w, hw, rfl⟩
    exact foldl_key_mem statusCodes mode oracle (batchItems targets words)
      st (t, w) hmem
  · intro p hp
    exact foldl_probed_sound statusCodes mode oracle
      (batchItems targets words) st p hp

/-- Witness for C1: a concrete one-item batch from an empty completion set —
the pair ends up completed, and the probe that is issued is for a pair that
was not completed at batch start. -/
theorem c1_completion_and_no_reprobe_witness :
    completionKey "a" "w" ∈
      (processBatch [200] ScanMode.ModeWildcards
        (fun _ _ => ProbeOutcome.failure "x") ["a"] ["w"]
        ⟨emptyStats, NewFalsePositiveTracker, [], [], []⟩).completed ∧
    (("a", "w") ∈ ([] : List (String × String)) ∨
      completionKey "a" "w" ∉ ([] : List String)) :=
  ⟨(c1_completion_and_no_reprobe [200] ScanMode.ModeWildcards
      (fun _ _ => ProbeOutcome.failure "x") ["a"] ["w"]
      ⟨emptyStats, NewFalsePositiveTracker, [], [], []⟩).1 "a" "w"
      (by decide) (by decide),
   (c1_completion_and_no_reprobe [200] ScanMode.ModeWildcards
      (fun _ _ => ProbeOutcome.failure "x") ["a"] ["w"]
      ⟨emptyStats, NewFalsePositiveTracker, [], [], []⟩).2 ("a", "w")
      (by decide)⟩

/-! ## C9: fresh-run batch layout -/

/-- **C9**: with no loaded progress, `Scanner.Run` sets
`TotalWork = len(targets)*len(words)` and `TotalBatches` to the ceiling of
`len(words)/batch` (characterised as the least `k` with
`len(words) ≤ k*batch`), iterates batch indices from `LastBatch` (= 0) up
to `TotalBatches - 1`, and batch `i` covers exactly the word indices
`[i*batch, min(len(words), (i+1)*batch))`. -/
theorem c9_fresh_run_batching (targets words : List String) (batch : Nat)
    (hb : 0 < batch) (hw : words ≠ []) :
    (freshProgress targets words batch).TotalWork =
      targets.length * words.length ∧
    words.length ≤ (freshProgress targets words batch).TotalBatches * batch ∧
    (∀ k, words.length ≤ k * batch →
      (freshProgress targets words batch).TotalBatches ≤ k) ∧
    runBatchIndices (freshProgress targets words batch) =
      List.range (freshProgress targets words batch).TotalBatches ∧
    (∀ i j, (batchSlice words batch i)[j]? =
      if i * batch + j < min words.length ((i + 1) * batch) then
        words[i * batch + j]?
      else none) := by
  refine ⟨rfl, ?_, ?_, ?_, ?_⟩
  · have key := (Nat.div_le_iff_le_mul_add_pred hb).mp
      (le_refl ((words.length + batch - 1) / batch))
    simp only [freshProgress]
    rw [Nat.mul_comm]
    generalize batch * ((words.length + batch - 1) / batch) = m at key ⊢
    omega
  · intro k hk
    simp only [freshProgress]
    rw [Nat.div_le_iff_le_mul_add_pred hb]
    rw [Nat.mul_comm] at hk
    generalize batch * k = m at hk ⊢
    omega
  · simp [runBatchIndices, freshProgress, List.range_eq_range']
  · intro i j
    have hib : (i + 1) * batch = i * batch + batch := by ring
    simp only [batchSlice, hib]
    rw [List.getElem?_take, List.getElem?_drop]
    generalize i * batch = a
    by_cases hc : a + j < min words.length (a + batch)
    · rw [if_pos hc, if_pos (by omega)]
    · rw [if_neg hc, if_neg (by omega)]

/-- Witness for C9: three words in batches of two give two batches, indices
`[0, 1]`, and batch 1 holds the third word. -/
theorem c9_fresh_run_batching_witness :
    (freshProgress ["a"] ["x", "y", "z"] 2).TotalWork =
      (["a"] : List String).length * (["x", "y", "z"] : List String).length ∧
    (["x", "y", "z"] : List String).length ≤
      (freshProgress ["a"] ["x", "y", "z"] 2).TotalBatches * 2 ∧
    (freshProgress ["a"] ["x", "y", "z"] 2).TotalBatches ≤ 2 ∧
    runBatchIndices (freshProgress ["a"] ["x", "y", "z"] 2) =
      List.range (freshProgress ["a"] ["x", "y", "z"] 2).TotalBatches ∧
    (batchSlice ["x", "y", "z"] 2 1)[0]? =
      (if 1 * 2 + 0 < min (["x", "y", "z"] : List String).length
          ((1 + 1) * 2) then
        (["x", "y", "z"] : List String)[1 * 2 + 0]?
      else none) :=
  ⟨(c9_fresh_run_batching ["a"] ["x", "y", "z"] 2 (by decide) (by decide)).1,
   (c9_fresh_run_batching ["a"] ["x", "y", "z"] 2 (by decide)
     (by decide)).2.1,
   (c9_fresh_run_batching ["a"] ["x", "y", "z"] 2 (by decide)
     (by decide)).2.2.1 2 (by decide),
   (c9_fresh_run_batching ["a"] ["x", "y", "z"] 2 (by decide)
     (by decide)).2.2.2.1,
   (c9_fresh_run_batching ["a"] ["x", "y", "z"] 2 (by decide)
     (by decide)).2.2.2.2 1 0⟩

end ApiSpray
